import Mathlib

/-!
Verification of the BAMetrics filter engine, embedded from
src/filters.rs, src/utils.rs and src/main.rs.

Modelling conventions:
* machine integers become Nat (u8, u16, u32, usize) or Int (i32, i64);
* a Rust panic (a failed assert, an out-of-bounds index, unwrap on an
  empty iterator) becomes the value none of an Option-returning function;
* f32 values are represented by their 32-bit IEEE-754 bit patterns (Nat),
  with Rust f32 equality implemented bit-level below;
* byte strings become lists of byte values.
-/

namespace BAMetrics

/-- bam::record::tags::TagName: a two-byte tag code ([u8; 2]). -/
abbrev TagName := Nat × Nat

/-- bam::record::tags::IntegerType: the integer encoding widths a BAM tag
value can carry. -/
inductive IntegerType where
  | I8 | U8 | I16 | U16 | I32 | U32
  deriving DecidableEq

/-- bam::record::tags::StringType: plain string or hex byte string. -/
inductive StringType where
  | string
  | hex
  deriving DecidableEq

/-- bam::record::tags::TagValue: a typed tag value stored on a record.
Array views are represented by their raw byte payload, which is exactly
what the source compares (a.raw() == b.raw()). -/
inductive TagValue where
  | char (c : Nat)
  | int (i : Int) (ty : IntegerType)
  | float (bits : Nat)
  | string (s : List Nat) (ty : StringType)
  | intArray (raw : List Nat)
  | floatArray (raw : List Nat)
  deriving DecidableEq

/-- utils.rs MinimalTagValue: the configured tag value of a TagFilter.
Only four kinds exist: Char, Int, Float, String. -/
inductive MinimalTagValue where
  | char (c : Nat)
  | int (i : Int)
  | float (bits : Nat)
  | string (s : String)
  deriving DecidableEq

/-- utils.rs BoolOperator. -/
inductive BoolOperator where
  | AND | OR | XOR | XNOR | NAND | NOR | IMPLIES
  deriving DecidableEq

/-- utils.rs _opposite: apply the per-filter negation switch. -/
def _opposite (boolean : Bool) (opposite : Bool) : Bool :=
  if opposite then !boolean else boolean

/-- A 32-bit IEEE-754 pattern is a NaN: exponent all ones, mantissa nonzero. -/
def f32IsNaN (bits : Nat) : Bool :=
  (Nat.land (bits >>> 23) 255 == 255) && (Nat.land bits 8388607 != 0)

/-- A 32-bit IEEE-754 pattern is (positive or negative) zero. -/
def f32IsZero (bits : Nat) : Bool :=
  Nat.land bits 2147483647 == 0

/-- Rust f32 PartialEq on bit patterns: NaN is equal to nothing, +0 equals -0,
and any other two values are equal exactly when their patterns coincide. -/
def f32Eq (a b : Nat) : Bool :=
  if f32IsNaN a || f32IsNaN b then false
  else if f32IsZero a && f32IsZero b then true
  else a == b

/-- utils.rs _minimal_tag_to_tag: expand a configured MinimalTagValue to a
TagValue. In the Int arm the source computes a local int_type (I32 for
negative values, U32 otherwise) but never uses it: the produced TagValue
always carries IntegerType::I32. String payloads are converted to their
bytes (s.as_bytes()) with StringType::String. -/
def _minimal_tag_to_tag : MinimalTagValue → TagValue
  | .char c => .char c
  | .int i => .int i .I32
  | .float f => .float f
  | .string s => .string (s.data.map Char.toNat) .string

/-- utils.rs _are_tag_values_equal: strict type-and-value equality between
two stored tag values; Int compares value and width, String compares bytes
and encoding, arrays compare raw payloads, any cross-kind pair is unequal. -/
def _are_tag_values_equal : TagValue → TagValue → Bool
  | .char a, .char b => a == b
  | .int a aTy, .int b bTy => a == b && aTy == bTy
  | .float a, .float b => f32Eq a b
  | .string a aTy, .string b bTy => a == b && aTy == bTy
  | .intArray a, .intArray b => a == b
  | .floatArray a, .floatArray b => a == b
  | _, _ => false

/-- Whether a stored tag value is one of the two array kinds. -/
def TagValue.isArray : TagValue → Bool
  | .intArray _ => true
  | .floatArray _ => true
  | _ => false

/-- The external bam::Record, restricted to the read-only view the filters
consume: query length, mapping quality, reference id, the 16-bit flag word,
the sequence (none when unavailable) and the tag table. -/
structure Record where
  queryLen : Nat
  mapq : Nat
  refId : Int
  flag : Nat
  seq : Option (List Char)
  tags : List (TagName × TagValue)
  deriving DecidableEq

/-- record.flag().is_reverse_strand(): bit 0x10 of the flag word. -/
def Record.isReverseStrand (r : Record) : Bool :=
  Nat.land r.flag 16 != 0

/-- record.flag().no_bits(mask): the flag word shares no bits with mask. -/
def Record.noBits (r : Record) (mask : Nat) : Bool :=
  Nat.land r.flag mask == 0

/-- record.tags().get(name): first tag with the given two-byte name. -/
def Record.getTag (r : Record) (tn : TagName) : Option TagValue :=
  r.tags.lookup tn

/-- Complement of a base character, as produced by the bam crate's
reverse-complement iterator; self-complementary codes map to themselves. -/
def complBase : Char → Char
  | 'A' => 'T'
  | 'C' => 'G'
  | 'G' => 'C'
  | 'T' => 'A'
  | 'M' => 'K'
  | 'K' => 'M'
  | 'R' => 'Y'
  | 'Y' => 'R'
  | 'V' => 'B'
  | 'B' => 'V'
  | 'H' => 'D'
  | 'D' => 'H'
  | c => c

/-- record.sequence().rev_compl(start..stop): the reverse complement of the
subsequence in the half-open range, as a list whose head is the first item
the Rust iterator yields. -/
def revCompl (s : List Char) (start stop : Nat) : List Char :=
  (((s.drop start).take (stop - start)).reverse).map complBase

/-- filters.rs Filter values: the closed union of the seven filter structs.
CombinedFilter (filters.rs lines 72-78) carries name, the two owned
sub-filters and the operator, and has no opposite field; the six leaf
structs each carry name, their variant fields and an opposite flag. -/
inductive Filter where
  | length (name : String) (minLen maxLen : Nat) (opposite : Bool)
  | mapq (name : String) (minMapq maxMapq : Nat) (opposite : Bool)
  | refName (name : String) (refId : Int) (opposite : Bool)
  | tag (name : String) (tagName : TagName) (tagValue : MinimalTagValue) (opposite : Bool)
  | nthNucleotide (name : String) (position : Int) (nucleotide : Char) (nIsWildcard : Bool) (opposite : Bool)
  | flag (name : String) (removeFlags : Nat) (opposite : Bool)
  | combined (name : String) (filter1 filter2 : Filter) (operator : BoolOperator)
  deriving DecidableEq

/-- fn name(&self): the name accessor every variant implements. -/
def Filter.name : Filter → String
  | .length nm _ _ _ => nm
  | .mapq nm _ _ _ => nm
  | .refName nm _ _ => nm
  | .tag nm _ _ _ => nm
  | .nthNucleotide nm _ _ _ _ => nm
  | .flag nm _ _ => nm
  | .combined nm _ _ _ => nm

/-- Whether the variant's struct declaration contains an opposite field
(filters.rs lines 72-125): true for the six leaf structs, false for
CombinedFilter. -/
def Filter.hasOppositeField : Filter → Bool
  | .combined _ _ _ _ => false
  | _ => true

/-- Whether the value is a CombinedFilter. -/
def Filter.isCombined : Filter → Bool
  | .combined _ _ _ _ => true
  | _ => false

/-- The combinator of CombinedFilter::apply_to: combine the two sub-results
under the operator. -/
def applyOperator : BoolOperator → Bool → Bool → Bool
  | .AND, a, b => a && b
  | .OR, a, b => a || b
  | .XOR, a, b => Bool.xor a b
  | .XNOR, a, b => !(Bool.xor a b)
  | .NAND, a, b => !(a && b)
  | .NOR, a, b => !(a || b)
  | .IMPLIES, a, b => !a || b

/-- NthNucleotideFilter::apply_to (filters.rs lines 365-393).
The leading assert_ne! makes position 0 a panic (none). Then: positions
whose absolute value exceeds the query length fail (raw false), an
unavailable sequence fails (raw false); otherwise the zero-based index is
computed, the base is read (complemented at the mirrored index on the
reverse strand), and the base is compared to the configured nucleotide,
with n_is_wildcard matching a resolved N unconditionally. -/
def nthNucleotideApply (pos : Int) (nuc : Char) (w o : Bool) (r : Record) : Option Bool :=
  if pos = 0 then none
  else if pos.natAbs > r.queryLen then some (_opposite false o)
  else
    match r.seq with
    | none => some (_opposite false o)
    | some s =>
      let len : Int := (r.queryLen : Int)
      let position : Int := if pos < 0 then len + pos else pos - 1
      let thisNuc : Option Char :=
        if r.isReverseStrand then
          (revCompl s (len - position - 1).toNat (len - position).toNat).head?
        else
          s[position.toNat]?
      match thisNuc with
      | none => none
      | some c =>
        some (if w && c == 'N' then _opposite true o else _opposite (c == nuc) o)

/-- TagFilter::apply_to (filters.rs lines 299-310): look the tag up, expand
the configured value, and compare under strict equality. -/
def tagApply (tn : TagName) (tv : MinimalTagValue) (o : Bool) (r : Record) : Option Bool :=
  some (match r.getTag tn with
    | some stored =>
      if _are_tag_values_equal stored (_minimal_tag_to_tag tv) then _opposite true o
      else _opposite false o
    | none => _opposite false o)

/-- apply_to of every filter variant, dispatching as the trait object does.
A none result models a panic during evaluation. -/
def applyTo : Filter → Record → Option Bool
  | .combined _ f1 f2 op, r =>
    match applyTo f1 r, applyTo f2 r with
    | some r1, some r2 => some (applyOperator op r1 r2)
    | _, _ => none
  | .flag _ rf o, r =>
    some (if r.noBits rf then _opposite true o else _opposite false o)
  | .length _ mn mx o, r =>
    some (if r.queryLen < mn || r.queryLen > mx then _opposite false o
      else _opposite true o)
  | .tag _ tn tv o, r => tagApply tn tv o r
  | .mapq _ mn mx o, r =>
    some (if r.mapq < mn || r.mapq > mx then _opposite false o
      else _opposite true o)
  | .refName _ rid o, r => some (_opposite (r.refId == rid) o)
  | .nthNucleotide _ pos nuc w o, r => nthNucleotideApply pos nuc w o r

/-- NthNucleotideFilter::new (filters.rs lines 191-211): construction
asserts that the nucleotide is one of A, C, G, T, N (a failed assert is
none) and performs no other validation; in particular the position field
is stored as given, zero included. -/
def NthNucleotideFilter.new (nm : String) (pos : Int) (nuc : Char) (w o : Bool) : Option Filter :=
  if nuc = 'A' ∨ nuc = 'C' ∨ nuc = 'G' ∨ nuc = 'T' ∨ nuc = 'N' then
    some (.nthNucleotide nm pos nuc w o)
  else none

/-- The nucleotide validity test of the constructor's assert. -/
def validNucleotide (nuc : Char) : Bool :=
  nuc == 'A' || nuc == 'C' || nuc == 'G' || nuc == 'T' || nuc == 'N'

/-- filters.rs Config: the filter catalog, a name-to-filter mapping with
insert-overwrite semantics. The backing HashMap is modelled as an
association list holding one entry per key; get returns the stored value
(clone of a pure value, hence the deep copy is the value itself). -/
def Config := List (String × Filter)

/-- Config::new. -/
def Config.new : Config := []

/-- Config::count. -/
def Config.count (c : Config) : Nat := c.length

/-- Config::push: insert or overwrite the entry under the key. -/
def Config.push (c : Config) (k : String) (v : Filter) : Config :=
  (k, v) :: c.filter (fun p => p.1 != k)

/-- Config::get: the stored filter under the key, or none. -/
def Config.get (c : Config) (k : String) : Option Filter :=
  c.lookup k

/-- main.rs create_filter (Nucleotide arm) followed by store_filter: build
the filter, then push it into the catalog; a construction panic aborts
before any catalog mutation, leaving no updated catalog. -/
def createNthNucleotideFilter (cfg : Config) (nm : String) (pos : Int) (nuc : Char) (w o : Bool) : Option Config :=
  match NthNucleotideFilter.new nm pos nuc w o with
  | some f => some (Config.push cfg nm f)
  | none => none

/-- Rust Debug formatting of a BoolOperator. -/
def BoolOperator.debugStr : BoolOperator → String
  | .AND => "AND"
  | .OR => "OR"
  | .XOR => "XOR"
  | .XNOR => "XNOR"
  | .NAND => "NAND"
  | .NOR => "NOR"
  | .IMPLIES => "IMPLIES"

/-- Rust pretty Debug ({:#?}) of a [u8; 2] tag name. -/
def tagNameDebugStr (tn : TagName) : String :=
  "[\n    " ++ toString tn.1 ++ ",\n    " ++ toString tn.2 ++ ",\n]"

/-- strum Display of a MinimalTagValue: the variant name only. -/
def MinimalTagValue.displayStr : MinimalTagValue → String
  | .char _ => "Char"
  | .int _ => "Int"
  | .float _ => "Float"
  | .string _ => "String"

/-- fn repr(&self) of every variant, following the format strings of
filters.rs (note the source omits n_is_wildcard from the
NthNucleotideFilter repr). -/
def Filter.repr : Filter → String
  | .length nm mn mx o =>
    "LengthFilter(name=" ++ nm ++ ", min_len=" ++ toString mn ++ ", max_len="
      ++ toString mx ++ ", opposite=" ++ toString o ++ ")"
  | .mapq nm mn mx o =>
    "MapqFilter(name=" ++ nm ++ ", min_mapq=" ++ toString mn ++ ", max_mapq="
      ++ toString mx ++ ", opposite=" ++ toString o ++ ")"
  | .refName nm rid o =>
    "RefNameFilter(name=" ++ nm ++ ", ref_id=" ++ toString rid ++ ", opposite="
      ++ toString o ++ ")"
  | .tag nm tn tv o =>
    "TagFilter(name=" ++ nm ++ ", tag_name=" ++ tagNameDebugStr tn
      ++ ", tag_value=" ++ tv.displayStr ++ ", opposite=" ++ toString o ++ ")"
  | .nthNucleotide nm pos nuc _ o =>
    "NthNucleotideFilter(name=" ++ nm ++ ", position=" ++ toString pos
      ++ ", nucleotide=" ++ "'" ++ String.singleton nuc ++ "'"
      ++ ", opposite=" ++ toString o ++ ")"
  | .flag nm rf o =>
    "FlagFilter(name=" ++ nm ++ ", remove_flags=" ++ toString rf
      ++ ", opposite=" ++ toString o ++ ")"
  | .combined nm f1 f2 op =>
    "CombinedFilter(name=" ++ nm ++ ", filter1=" ++ f1.name ++ ", filter2="
      ++ f2.name ++ ", operator=" ++ op.debugStr ++ ")"

/-- Modelled from the spec: the field payloads of the tagged text encoding.
The concrete JSON writer and reader (serde_json plus the typetag derive
code) are external to src/, so the codec is modelled from the spec's
serialization contract. -/
inductive FVal where
  | s (v : String)
  | n (v : Nat)
  | i (v : Int)
  | b (v : Bool)
  | c (v : Char)
  | tn (v : TagName)
  | mtv (v : MinimalTagValue)
  deriving DecidableEq

/-- Modelled from the spec: a tagged encoded filter, a discriminator field
plus the variant's own fields; a Combined entry embeds two full nested
encoded filters. -/
inductive Enc where
  | leaf (tag : String) (fields : List (String × FVal))
  | node (tag : String) (name : String) (filter1 filter2 : Enc) (operator : BoolOperator)
  deriving DecidableEq

/-- Field lookup in an encoded record. -/
def findField (fs : List (String × FVal)) (k : String) : Option FVal :=
  fs.lookup k

def getS (fs : List (String × FVal)) (k : String) : Option String :=
  match findField fs k with
  | some (.s v) => some v
  | _ => none

def getN (fs : List (String × FVal)) (k : String) : Option Nat :=
  match findField fs k with
  | some (.n v) => some v
  | _ => none

def getI (fs : List (String × FVal)) (k : String) : Option Int :=
  match findField fs k with
  | some (.i v) => some v
  | _ => none

def getB (fs : List (String × FVal)) (k : String) : Option Bool :=
  match findField fs k with
  | some (.b v) => some v
  | _ => none

def getC (fs : List (String × FVal)) (k : String) : Option Char :=
  match findField fs k with
  | some (.c v) => some v
  | _ => none

def getTN (fs : List (String × FVal)) (k : String) : Option TagName :=
  match findField fs k with
  | some (.tn v) => some v
  | _ => none

def getMTV (fs : List (String × FVal)) (k : String) : Option MinimalTagValue :=
  match findField fs k with
  | some (.mtv v) => some v
  | _ => none

/-- Modelled from the spec: encode a Filter Value as a tagged record whose
discriminator is the variant's type name and whose fields are the serde
field names of the variant. -/
def encode : Filter → Enc
  | .length nm mn mx o =>
    .leaf "LengthFilter" [("name", .s nm), ("min_len", .n mn), ("max_len", .n mx), ("opposite", .b o)]
  | .mapq nm mn mx o =>
    .leaf "MapqFilter" [("name", .s nm), ("min_mapq", .n mn), ("max_mapq", .n mx), ("opposite", .b o)]
  | .refName nm rid o =>
    .leaf "RefNameFilter" [("name", .s nm), ("ref_id", .i rid), ("opposite", .b o)]
  | .tag nm tn tv o =>
    .leaf "TagFilter" [("name", .s nm), ("tag_name", .tn tn), ("tag_value", .mtv tv), ("opposite", .b o)]
  | .nthNucleotide nm pos nuc w o =>
    .leaf "NthNucleotideFilter" [("name", .s nm), ("position", .i pos), ("nucleotide", .c nuc), ("n_is_wildcard", .b w), ("opposite", .b o)]
  | .flag nm rf o =>
    .leaf "FlagFilter" [("name", .s nm), ("remove_flags", .n rf), ("opposite", .b o)]
  | .combined nm f1 f2 op =>
    .node "CombinedFilter" nm (encode f1) (encode f2) op

/-- The known leaf discriminators. -/
def leafTags : List String :=
  ["LengthFilter", "MapqFilter", "RefNameFilter", "TagFilter", "NthNucleotideFilter", "FlagFilter"]

/-- Modelled from the spec: decode dispatches on the discriminator; an
unrecognized discriminator is a hard decode failure (none). -/
def decode : Enc → Option Filter
  | .leaf t fs =>
    if t = "LengthFilter" then
      match getS fs "name", getN fs "min_len", getN fs "max_len", getB fs "opposite" with
      | some nm, some mn, some mx, some o => some (.length nm mn mx o)
      | _, _, _, _ => none
    else if t = "MapqFilter" then
      match getS fs "name", getN fs "min_mapq", getN fs "max_mapq", getB fs "opposite" with
      | some nm, some mn, some mx, some o => some (.mapq nm mn mx o)
      | _, _, _, _ => none
    else if t = "RefNameFilter" then
      match getS fs "name", getI fs "ref_id", getB fs "opposite" with
      | some nm, some rid, some o => some (.refName nm rid o)
      | _, _, _ => none
    else if t = "TagFilter" then
      match getS fs "name", getTN fs "tag_name", getMTV fs "tag_value", getB fs "opposite" with
      | some nm, some tn, some tv, some o => some (.tag nm tn tv o)
      | _, _, _, _ => none
    else if t = "NthNucleotideFilter" then
      match getS fs "name", getI fs "position", getC fs "nucleotide", getB fs "n_is_wildcard", getB fs "opposite" with
      | some nm, some pos, some nuc, some w, some o => some (.nthNucleotide nm pos nuc w o)
      | _, _, _, _, _ => none
    else if t = "FlagFilter" then
      match getS fs "name", getN fs "remove_flags", getB fs "opposite" with
      | some nm, some rf, some o => some (.flag nm rf o)
      | _, _, _ => none
    else none
  | .node t nm e1 e2 op =>
    if t = "CombinedFilter" then
      match decode e1, decode e2 with
      | some f1, some f2 => some (.combined nm f1 f2 op)
      | _, _ => none
    else none

/-- The truth table of spec section 4.2, transcribed cell by cell from the
spec's table (a spec-side reference definition, to be compared with the
combinator translated from the source). -/
def specCombineTable : BoolOperator → Bool → Bool → Bool
  | .AND, false, false => false
  | .AND, false, true => false
  | .AND, true, false => false
  | .AND, true, true => true
  | .OR, false, false => false
  | .OR, false, true => true
  | .OR, true, false => true
  | .OR, true, true => true
  | .XOR, false, false => false
  | .XOR, false, true => true
  | .XOR, true, false => true
  | .XOR, true, true => false
  | .XNOR, false, false => true
  | .XNOR, false, true => false
  | .XNOR, true, false => false
  | .XNOR, true, true => true
  | .NAND, false, false => true
  | .NAND, false, true => true
  | .NAND, true, false => true
  | .NAND, true, true => false
  | .NOR, false, false => true
  | .NOR, false, true => false
  | .NOR, true, false => false
  | .NOR, true, true => false
  | .IMPLIES, false, false => true
  | .IMPLIES, false, true => true
  | .IMPLIES, true, false => false
  | .IMPLIES, true, true => true

/-- The forward-strand test record of the filters.rs test fixtures
(record_1): sequence ACGT, ref 0, mapq 20, flag 0. -/
def rec1 : Record :=
  { queryLen := 4, mapq := 20, refId := 0, flag := 0,
    seq := some ['A', 'C', 'G', 'T'], tags := [] }

/-- The reverse-strand test record of the filters.rs test fixtures
(record_2): a 20-base sequence, ref 0, mapq 0, flag 1040 (0x410, reverse
strand bit set). -/
def rec2 : Record :=
  { queryLen := 20, mapq := 0, refId := 0, flag := 1040,
    seq := some ['G', 'A', 'C', 'G', 'T', 'A', 'A', 'G', 'G', 'G', 'C', 'A', 'T', 'T', 'A', 'C', 'G', 'A', 'N', 'N'],
    tags := [] }

/-- Scenario D of the spec: a reverse-strand record (flag 0x10) whose
stored, already-complemented sequence is ACGT. -/
def recRev : Record :=
  { queryLen := 4, mapq := 10, refId := 0, flag := 16,
    seq := some ['A', 'C', 'G', 'T'], tags := [] }

/-- A record whose sequence is unavailable but whose stored query length is
positive, with one NM integer tag. -/
def recNoSeq : Record :=
  { queryLen := 5, mapq := 3, refId := 1, flag := 0,
    seq := none, tags := [((78, 77), .int 0 .I32)] }

/-- A record carrying an integer-array tag under the name XA. -/
def recArrayTag : Record :=
  { queryLen := 4, mapq := 3, refId := 0, flag := 0,
    seq := some ['A', 'C', 'G', 'T'], tags := [((88, 65), .intArray [1, 2, 3])] }

/-! ## Theorems -/

/-- The raw nucleotide comparison of the source (wildcard branch first) is
the disjunction the spec describes. -/
theorem raw_result_eq (c nuc : Char) (w o : Bool) :
    (if w && c == 'N' then _opposite true o else _opposite (c == nuc) o)
      = _opposite ((c == nuc) || (w && c == 'N')) o := by
  cases w <;> cases hc : c == 'N' <;> simp [hc]

/-- A lookup that misses stays a miss on any filtered sublist. -/
theorem lookup_filter_none (c : List (String × Filter)) (k2 kx : String)
    (h : c.lookup k2 = none) :
    (c.filter fun p => p.1 != kx).lookup k2 = none := by
  induction c with
  | nil => rfl
  | cons hd tl ih =>
    obtain ⟨hk, hv⟩ := hd
    rw [List.lookup_cons] at h
    cases hb : k2 == hk with
    | true => rw [hb] at h; exact absurd h (by simp)
    | false =>
      rw [hb] at h
      simp only [List.filter_cons]
      by_cases hx : ((hk, hv).1 != kx) = true
      · rw [if_pos hx, List.lookup_cons, hb]
        exact ih h
      · rw [if_neg hx]
        exact ih h

/-- C3 counterexample: a concrete Combined filter value has no opposite
field, so the claim that every variant carries an opposite flag is false. -/
theorem combined_no_opposite_field_cex :
    Filter.hasOppositeField
      (.combined "c" (.length "a" 1 2 false) (.length "b" 1 2 false) .AND) = false := rfl

/-- C3 (amended): every variant carries a name; the six leaf variants carry
an opposite field while the Combined variant does not; and a Combined
filter's apply_to result is determined solely by the operator applied to
the two sub-filter results (no extra negation layer). -/
theorem filter_common_fields_amended :
    (∀ f : Filter, f.hasOppositeField = !f.isCombined) ∧
    (∀ (nm : String) (f1 f2 : Filter) (op : BoolOperator),
      (Filter.combined nm f1 f2 op).name = nm) ∧
    (∀ (nm : String) (f1 f2 : Filter) (op : BoolOperator) (r : Record),
      applyTo (.combined nm f1 f2 op) r =
        match applyTo f1 r, applyTo f2 r with
        | some r1, some r2 => some (applyOperator op r1 r2)
        | _, _ => none) := by
  refine ⟨fun f => ?_, fun nm f1 f2 op => rfl, fun nm f1 f2 op r => ?_⟩
  · cases f <;> rfl
  · simp [applyTo]

/-- C4 counterexample: construction with position 0 and a valid nucleotide
succeeds, so the claim that construction fails whenever the position equals
0 is false. -/
theorem nthNucleotide_new_zero_position_accepted_cex :
    NthNucleotideFilter.new "f" 0 'A' false false
      = some (.nthNucleotide "f" 0 'A' false false) := by decide

/-- C4 (amended): constructing an NthNucleotideFilter fails (before any
catalog mutation) exactly when the nucleotide is not one of A, C, G, T, N;
the position is not validated at construction, so position 0 is accepted. -/
theorem nthNucleotide_new_validation_amended (nm : String) (pos : Int)
    (nuc : Char) (w o : Bool) :
    ((NthNucleotideFilter.new nm pos nuc w o).isSome = validNucleotide nuc) ∧
    (∀ cfg : Config,
      (createNthNucleotideFilter cfg nm pos nuc w o).isSome = validNucleotide nuc) := by
  have h1 : (NthNucleotideFilter.new nm pos nuc w o).isSome = validNucleotide nuc := by
    unfold NthNucleotideFilter.new validNucleotide
    by_cases h : nuc = 'A' ∨ nuc = 'C' ∨ nuc = 'G' ∨ nuc = 'T' ∨ nuc = 'N'
    · rw [if_pos h]
      rcases h with h | h | h | h | h <;> subst h <;> rfl
    · rw [if_neg h]
      push_neg at h
      obtain ⟨h1, h2, h3, h4, h5⟩ := h
      simp [h1, h2, h3, h4, h5]
  refine ⟨h1, fun cfg => ?_⟩
  unfold createNthNucleotideFilter
  cases hn : NthNucleotideFilter.new nm pos nuc w o with
  | none => rw [hn] at h1; simpa using h1
  | some f => rw [hn] at h1; simpa using h1

/-- C5: a Combined filter evaluates both sub-filters and combines the two
results per the operator, and the combinator agrees with the spec's truth
table on all seven operators and all four input pairs. -/
theorem combinedFilter_truth_table (nm : String) (f1 f2 : Filter)
    (op : BoolOperator) (r : Record) (r1 r2 : Bool)
    (h1 : applyTo f1 r = some r1) (h2 : applyTo f2 r = some r2) :
    applyTo (.combined nm f1 f2 op) r = some (applyOperator op r1 r2) ∧
    (∀ (o : BoolOperator) (a b : Bool), applyOperator o a b = specCombineTable o a b) := by
  refine ⟨?_, fun o a b => by cases o <;> cases a <;> cases b <;> rfl⟩
  simp [applyTo, h1, h2]

/-- C5 witness: the truth table theorem applied to two concrete length
filters on the forward test record. -/
theorem combinedFilter_truth_table_witness :
    applyTo (.combined "c" (.length "a" 1 10 false) (.length "b" 5 10 false) .AND) rec1
      = some (applyOperator .AND true false) :=
  (combinedFilter_truth_table "c" (.length "a" 1 10 false) (.length "b" 5 10 false)
    .AND rec1 true false (by decide) (by decide)).1

/-- C9: expanding a configured Int tag value always produces integer width
I32, whatever the sign, and consequently strict equality against such an
expanded value forces the stored tag to be an I32 integer of that value. -/
theorem minimal_int_always_I32 :
    (∀ i : Int, _minimal_tag_to_tag (.int i) = .int i .I32) ∧
    (∀ (stored : TagValue) (i : Int),
      _are_tag_values_equal stored (_minimal_tag_to_tag (.int i)) = true →
        stored = .int i .I32) := by
  refine ⟨fun i => rfl, fun stored i h => ?_⟩
  cases stored <;> simp [_are_tag_values_equal, _minimal_tag_to_tag] at h ⊢
  exact h

/-- C9 witness: the width-forcing direction applied to a concrete stored
I32 tag of value 5. -/
theorem minimal_int_always_I32_witness :
    TagValue.int 5 IntegerType.I32 = TagValue.int 5 IntegerType.I32 :=
  minimal_int_always_I32.2 (.int 5 .I32) 5 (by decide)

/-- C10: a configured tag value expands to one of the four scalar kinds
(never an array), strict equality between a stored array tag and the
expanded value is always false, and a TagFilter applied to a record whose
matching tag is an IntArray or FloatArray yields raw false (inverted by
opposite). -/
theorem tagFilter_never_matches_arrays (nm : String) (tn : TagName)
    (tv : MinimalTagValue) (o : Bool) (r : Record) :
    ((_minimal_tag_to_tag tv).isArray = false) ∧
    (∀ raw, _are_tag_values_equal (.intArray raw) (_minimal_tag_to_tag tv) = false) ∧
    (∀ raw, _are_tag_values_equal (.floatArray raw) (_minimal_tag_to_tag tv) = false) ∧
    (∀ raw, r.getTag tn = some (.intArray raw) →
      applyTo (.tag nm tn tv o) r = some (_opposite false o)) ∧
    (∀ raw, r.getTag tn = some (.floatArray raw) →
      applyTo (.tag nm tn tv o) r = some (_opposite false o)) := by
  have hi : ∀ raw, _are_tag_values_equal (.intArray raw) (_minimal_tag_to_tag tv) = false := by
    intro raw; cases tv <;> rfl
  have hf : ∀ raw, _are_tag_values_equal (.floatArray raw) (_minimal_tag_to_tag tv) = false := by
    intro raw; cases tv <;> rfl
  refine ⟨by cases tv <;> rfl, hi, hf, fun raw h => ?_, fun raw h => ?_⟩
  · simp [applyTo, tagApply, h, hi raw]
  · simp [applyTo, tagApply, h, hf raw]

/-- C10 witness: a TagFilter with a configured Int value applied to the
record whose XA tag is an integer array fails (raw false). -/
theorem tagFilter_never_matches_arrays_witness :
    applyTo (.tag "t" (88, 65) (.int 1) false) recArrayTag = some (_opposite false false) :=
  (tagFilter_never_matches_arrays "t" (88, 65) (.int 1) false recArrayTag).2.2.2.1
    [1, 2, 3] (by decide)

/-- C7: after push the key maps to the pushed value (a pure value, so the
returned deep copy is behaviorally identical on every record), a second
push under the same key overwrites, the empty catalog has no entries, and
a key a catalog does not contain stays absent after pushes of other keys
(so a name never pushed signals not-found). -/
theorem config_push_get_semantics (c : Config) (k k2 : String)
    (v v1 v2 : Filter) (hne : k2 ≠ k) :
    (Config.get (Config.push c k v) k = some v) ∧
    (∀ (f : Filter) (r : Record),
      Config.get (Config.push c k v) k = some f → applyTo f r = applyTo v r) ∧
    (Config.get (Config.push (Config.push c k v1) k v2) k = some v2) ∧
    (Config.get Config.new k2 = none) ∧
    (Config.get c k2 = none → Config.get (Config.push c k v) k2 = none) := by
  have hget : ∀ (c' : Config) (v' : Filter),
      Config.get (Config.push c' k v') k = some v' := by
    intro c' v'
    show List.lookup k ((k, v') :: _) = some v'
    rw [List.lookup_cons]
    simp
  refine ⟨hget c v, fun f r hf => ?_, hget _ v2, rfl, fun hmiss => ?_⟩
  · rw [hget c v] at hf
    cases hf
    rfl
  · show List.lookup k2 ((k, v) :: _) = none
    rw [List.lookup_cons]
    have hb : (k2 == k) = false := by
      simp [hne]
    rw [hb]
    exact lookup_filter_none c k2 k hmiss

/-- C7 witness: the catalog semantics applied to concrete names and
filters. -/
theorem config_push_get_semantics_witness :
    Config.get (Config.push Config.new "f" (.length "a" 1 2 false)) "f"
      = some (.length "a" 1 2 false) :=
  (config_push_get_semantics Config.new "f" "missing" (.length "a" 1 2 false)
    (.length "a" 1 2 false) (.length "a" 1 2 false) (by decide)).1

/-- C8: a TagFilter fails (raw false) when the tag is absent; when present
it passes exactly when the stored value equals the expanded configured
value under strict equality, which on Int values compares value and
integer width and on String values compares bytes and string encoding; the
raw result is then passed through the opposite inversion. -/
theorem tagFilter_apply_semantics (nm : String) (tn : TagName)
    (tv : MinimalTagValue) (o : Bool) (r : Record) :
    (r.getTag tn = none → applyTo (.tag nm tn tv o) r = some (_opposite false o)) ∧
    (∀ stored, r.getTag tn = some stored →
      applyTo (.tag nm tn tv o) r
        = some (_opposite (_are_tag_values_equal stored (_minimal_tag_to_tag tv)) o)) ∧
    (∀ (a : Int) (aTy : IntegerType) (b : Int) (bTy : IntegerType),
      _are_tag_values_equal (.int a aTy) (.int b bTy) = (a == b && aTy == bTy)) ∧
    (∀ (a : List Nat) (aTy : StringType) (b : List Nat) (bTy : StringType),
      _are_tag_values_equal (.string a aTy) (.string b bTy) = (a == b && aTy == bTy)) := by
  refine ⟨fun h => ?_, fun stored h => ?_, fun a aTy b bTy => rfl, fun a aTy b bTy => rfl⟩
  · simp [applyTo, tagApply, h]
  · simp only [applyTo, tagApply, h]
    cases hq : _are_tag_values_equal stored (_minimal_tag_to_tag tv) <;> simp [hq]

/-- C8 witness: scenario E of the spec, a Tag NM Int 0 filter applied to a
record lacking the NM tag, plus the width-sensitive Int equality evaluated
concretely. -/
theorem tagFilter_apply_semantics_witness :
    applyTo (.tag "e" (78, 77) (.int 0) false) rec1 = some (_opposite false false) :=
  (tagFilter_apply_semantics "e" (78, 77) (.int 0) false rec1).1 (by decide)

/-- C1 counterexample: apply_to of a position-0 NthNucleotideFilter on the
forward test record hits the assert_ne! and panics (modelled none), rather
than returning the defined raw-false outcome the claim requires. -/
theorem nthNucleotide_position_zero_panics_cex :
    applyTo (.nthNucleotide "z" 0 'A' false false) rec1 = none ∧
    applyTo (.nthNucleotide "z" 0 'A' false false) rec1 ≠ some (_opposite false false) := by
  constructor
  · rfl
  · decide

/-- C1 (amended): apply_to with |position| > query_len or with an
unavailable sequence returns the defined raw-false outcome through the
opposite inversion without raising; apply_to with position == 0 instead
fails the assert_ne! assertion (a panic, modelled none). -/
theorem nthNucleotide_edge_cases_amended (nm : String) (pos : Int)
    (nuc : Char) (w o : Bool) (r : Record) :
    (pos = 0 → applyTo (.nthNucleotide nm pos nuc w o) r = none) ∧
    (pos ≠ 0 → pos.natAbs > r.queryLen →
      applyTo (.nthNucleotide nm pos nuc w o) r = some (_opposite false o)) ∧
    (pos ≠ 0 → r.seq = none →
      applyTo (.nthNucleotide nm pos nuc w o) r = some (_opposite false o)) := by
  refine ⟨fun h0 => ?_, fun hnz habs => ?_, fun hnz hseq => ?_⟩
  · simp [applyTo, nthNucleotideApply, h0]
  · simp [applyTo, nthNucleotideApply, hnz, habs]
  · by_cases habs : pos.natAbs > r.queryLen
    · simp [applyTo, nthNucleotideApply, hnz, habs]
    · simp [applyTo, nthNucleotideApply, hnz, habs, hseq]

/-- C1 witness: the amended edge cases evaluated concretely, on a position
beyond the 4-base forward record and on the record without a sequence. -/
theorem nthNucleotide_edge_cases_amended_witness :
    applyTo (.nthNucleotide "p" 9 'A' false false) rec1 = some (_opposite false false) ∧
    applyTo (.nthNucleotide "q" 2 'A' false true) recNoSeq = some (_opposite false true) :=
  ⟨(nthNucleotide_edge_cases_amended "p" 9 'A' false false rec1).2.1 (by decide) (by decide),
   (nthNucleotide_edge_cases_amended "q" 2 'A' false true recNoSeq).2.2 (by decide) (by decide)⟩

/-- The reverse-complement of a single-base range is the complement of the
base at its start. -/
theorem revCompl_singleton (s : List Char) (a : Nat) (h : a < s.length) :
    revCompl s a (a + 1) = [complBase (s.getD a 'N')] := by
  unfold revCompl
  have h1 : a + 1 - a = 1 := by omega
  rw [h1, List.drop_eq_getElem_cons h, List.take_succ_cons, List.take_zero,
    List.getD_eq_getElem s 'N' h]
  rfl

/-- C2: for an in-range non-zero position on a record with an available
sequence of the stated query length, apply_to resolves the zero-based
index as position - 1 (positive position) or query_len + position
(negative position), reads the complement of the base at the mirrored
index query_len - index - 1 on the reverse strand and the raw base at the
index on the forward strand, and the raw result is true exactly when the
resolved base equals the configured nucleotide or n_is_wildcard is set and
the resolved base is N, all before the opposite inversion. -/
theorem nthNucleotide_resolution_correct (nm : String) (pos : Int) (nuc : Char)
    (w o : Bool) (r : Record) (s : List Char) (index : Nat) (resolved : Char)
    (hs : r.seq = some s) (hlen : s.length = r.queryLen)
    (hnz : pos ≠ 0) (hrange : pos.natAbs ≤ r.queryLen)
    (hidx : (index : Int) = if pos < 0 then (r.queryLen : Int) + pos else pos - 1)
    (hres : resolved =
      if r.isReverseStrand then complBase (s.getD (r.queryLen - index - 1) 'N')
      else s.getD index 'N') :
    applyTo (.nthNucleotide nm pos nuc w o) r
      = some (_opposite ((resolved == nuc) || (w && resolved == 'N')) o) := by
  have hidx_lt : index < r.queryLen := by
    by_cases hneg : pos < 0
    · rw [if_pos hneg] at hidx
      omega
    · rw [if_neg hneg] at hidx
      omega
  obtain ⟨ql, mq, rid, fl, sq, tgs⟩ := r
  dsimp only [Record.queryLen, Record.seq, Record.isReverseStrand] at hs hlen hrange hidx hres hidx_lt
  subst hs
  have habs : ¬ pos.natAbs > ql := by omega
  simp only [applyTo]
  unfold nthNucleotideApply
  rw [if_neg hnz]
  dsimp only [Record.queryLen, Record.seq, Record.isReverseStrand]
  rw [if_neg habs]
  rw [← hidx]
  have hlt : index < s.length := by omega
  by_cases hrev : (Nat.land fl 16 != 0) = true
  · rw [if_pos hrev] at hres ⊢
    have ha : ((ql : Int) - (index : Int) - 1).toNat = ql - index - 1 := by omega
    have hb : ((ql : Int) - (index : Int)).toNat = (ql - index - 1) + 1 := by omega
    rw [ha, hb, revCompl_singleton s (ql - index - 1) (by omega)]
    dsimp only [List.head?]
    rw [raw_result_eq, ← hres]
  · rw [if_neg hrev] at hres ⊢
    rw [Int.toNat_natCast, List.getElem?_eq_getElem hlt]
    dsimp only
    rw [raw_result_eq, hres, List.getD_eq_getElem s 'N' hlt]

/-- C2 witness: scenario C (forward strand, position 1 of ACGT resolves to
A) and scenario D (reverse strand, position 1 resolves to the complement of
the base at the mirrored index 3, T complemented to A). -/
theorem nthNucleotide_resolution_correct_witness :
    applyTo (.nthNucleotide "c" 1 'A' false false) rec1
      = some (_opposite ((('A' : Char) == 'A') || (false && (('A' : Char) == 'N'))) false) ∧
    applyTo (.nthNucleotide "d" 1 'A' false false) recRev
      = some (_opposite ((('A' : Char) == 'A') || (false && (('A' : Char) == 'N'))) false) :=
  ⟨nthNucleotide_resolution_correct "c" 1 'A' false false rec1
      ['A', 'C', 'G', 'T'] 0 'A' (by decide) (by decide) (by decide) (by decide)
      (by decide) (by decide),
   nthNucleotide_resolution_correct "d" 1 'A' false false recRev
      ['A', 'C', 'G', 'T'] 0 'A' (by decide) (by decide) (by decide) (by decide)
      (by decide) (by decide)⟩

/-- Decoding the encoding of any Filter Value reproduces the value itself. -/
theorem decode_encode_id (f : Filter) : decode (encode f) = some f := by
  induction f with
  | length nm mn mx o => rfl
  | mapq nm mn mx o => rfl
  | refName nm rid o => rfl
  | tag nm tn tv o => rfl
  | nthNucleotide nm pos nuc w o => rfl
  | flag nm rf o => rfl
  | combined nm f1 f2 op ih1 ih2 => simp [encode, decode, ih1, ih2]

/-- C6: decode of encode yields a value with identical apply_to behaviour
on every record and an identical repr string, and an unrecognized variant
discriminator (leaf or combined) is a hard decode failure. -/
theorem codec_roundtrip_and_unknown_discriminator :
    (∀ f : Filter, ∃ f' : Filter, decode (encode f) = some f' ∧
      (∀ r : Record, applyTo f' r = applyTo f r) ∧ f'.repr = f.repr) ∧
    (∀ (t : String) (fs : List (String × FVal)), t ∉ leafTags →
      decode (.leaf t fs) = none) ∧
    (∀ (t nm : String) (e1 e2 : Enc) (op : BoolOperator), t ≠ "CombinedFilter" →
      decode (.node t nm e1 e2 op) = none) := by
  refine ⟨fun f => ⟨f, decode_encode_id f, fun r => rfl, rfl⟩,
    fun t fs ht => ?_, fun t nm e1 e2 op ht => ?_⟩
  · simp only [leafTags, List.mem_cons, List.not_mem_nil, or_false] at ht
    push_neg at ht
    obtain ⟨h1, h2, h3, h4, h5, h6⟩ := ht
    simp only [decode]
    rw [if_neg h1, if_neg h2, if_neg h3, if_neg h4, if_neg h5, if_neg h6]
  · simp only [decode]
    rw [if_neg ht]

/-- C6 witness: unknown discriminators fail to decode, on a concrete leaf
and a concrete combined node. -/
theorem codec_roundtrip_and_unknown_discriminator_witness :
    decode (.leaf "BogusFilter" []) = none ∧
    decode (.node "Bogus" "x" (encode (.length "a" 1 2 false))
      (encode (.length "b" 1 2 false)) .AND) = none :=
  ⟨codec_roundtrip_and_unknown_discriminator.2.1 "BogusFilter" [] (by decide),
   codec_roundtrip_and_unknown_discriminator.2.2 "Bogus" "x"
     (encode (.length "a" 1 2 false)) (encode (.length "b" 1 2 false)) .AND (by decide)⟩

end BAMetrics
